import Mathlib

/-!
Verification of the SuperJob ingestion pipeline (`parser.py`).

Shallow embedding of the pipeline's pure logic: fetch-stage post-processing
(dedup / filter of the merged listing collection), the per-field
normalization lambdas, the fuzzy-matching stage, the write-back stage over
a modelled database state, and the orchestrator's exit-code / run-log
control flow.
-/

namespace SJ

/-- A raw listing row, as it sits in the merged dataframe built by
`pd.DataFrame.from_records(vacs_list)` (parser.py line 144).
`id` and `id_client` are nullable (`none` models NaN); `tag` stands for the
remaining payload columns and lets two rows with equal ids differ. -/
structure RawRow where
  id : Option Int
  id_client : Option Int
  tag : Nat
deriving DecidableEq, Repr

/-- Single pass of `drop_duplicates`: keep a row when its id value has not
been seen on an earlier row. -/
def dedupGo (seen : List (Option Int)) : List RawRow → List RawRow
  | [] => []
  | r :: rs => if r.id ∈ seen then dedupGo seen rs else r :: dedupGo (r.id :: seen) rs

/-- `df.drop_duplicates(subset=[ 'id' ])` (parser.py line 144).
Pandas' default is `keep='first'`: the first row of each id value is kept
and every later row with the same id (NaN counting as a value equal to
NaN) is dropped. -/
def dedupById (rows : List RawRow) : List RawRow := dedupGo [] rows

/-- `df = df[df.id_client != 0]` (parser.py line 145): pandas keeps the rows
where the comparison is True; NaN `!= 0` is True, so null `id_client` rows
survive and only literal zero is dropped. -/
def filterClientNonzero (rows : List RawRow) : List RawRow :=
  rows.filter (fun r => !(r.id_client == some 0))

/-- `df.dropna(subset=[ 'id' ], inplace=True)` (parser.py line 146). -/
def dropnaId (rows : List RawRow) : List RawRow :=
  rows.filter (fun r => r.id.isSome)

/-- Fetch-stage post-processing, in source order (parser.py lines 144-146):
deduplicate by id, drop rows with `id_client == 0`, drop rows with null id. -/
def fetchPostprocess (rows : List RawRow) : List RawRow :=
  dropnaId (filterClientNonzero (dedupById rows))

/-- One concrete raw listing row (id 1, client 5). -/
def rowA : RawRow := ⟨some 1, some 5, 0⟩

/-- A second raw listing row with the same listing id but different content. -/
def rowB : RawRow := ⟨some 1, some 7, 1⟩

/-- `pd.isnull` on a nullable integer: True exactly on NaN/None. -/
def pdIsnull (x : Option Int) : Bool := x.isNone

/-- The payment lambda `lambda x: x if not pd.isnull(x) != 0 else None`
(parser.py lines 209 and 211). Python parses the condition as
`(not pd.isnull(x)) != 0`, and since `True != 0` is `True` and
`False != 0` is `False`, the `!= 0` comparison never changes the boolean:
the branch keeps every non-null value, including literal 0. -/
def paymentNorm (x : Option Int) : Option Int :=
  if (if !(pdIsnull x) then (1 : Int) else 0) ≠ 0 then x else none

/-- A nested sub-object carrying an optional display title, as accessed by
`x.get('title')` — `dict.get` yields `None` when the key is absent. This
shape covers the education, experience, work-type, location-type,
marital-status, children, gender, agency and town sub-objects. -/
structure TitledObj where
  title : Option String
deriving DecidableEq, Repr

/-- The per-field lambda `lambda x: x.get('title') if not pd.isnull(x) else None`
(parser.py lines 197-203, 207, 208): a present sub-object (`pd.isnull` is
False on a dict) yields its title attribute, an absent one yields null. -/
def getTitle : Option TitledObj → Option String
  | some o => o.title
  | none => none

/-- The Python error raised by `len(x)` when the driving-licence cell is
NaN (a float) instead of a list. -/
def pyLenErr : String := "TypeError: object of type float has no len()"

/-- The Python error raised by iterating a NaN cell in a list
comprehension. -/
def pyIterErr : String := "TypeError: float object is not iterable"

/-- `lambda x: ', '.join(x) if len(x) else None` (parser.py line 204).
On a NaN cell `len(x)` raises, aborting the stage; an empty list is falsy
and yields null; a nonempty list joins with ", ". -/
def drivingLicenceNorm : Option (List String) → Except String (Option String)
  | none => Except.error pyLenErr
  | some l => Except.ok (if l.isEmpty then none else some (String.intercalate ", " l))

/-- A metro-station element, indexed as `d['title']`. -/
structure MetroSt where
  title : String
deriving DecidableEq, Repr

/-- `lambda x: '; '.join([d['title'] for d in x]) if x else None`
(parser.py line 213). A NaN cell is truthy in Python, so the comprehension
iterates a float and raises; an empty list is falsy and yields null. -/
def metroNorm : Option (List MetroSt) → Except String (Option String)
  | none => Except.error pyIterErr
  | some l =>
      Except.ok (if l.isEmpty then none else some (String.intercalate "; " (l.map (fun d => d.title))))

/-- A category-tag element, indexed as `d['id']` and `d['title']`. -/
structure Catalogue where
  id : Int
  title : String
deriving DecidableEq, Repr

/-- `lambda x: '; '.join([str(d['id']) for d in x]) if x else None`
(parser.py line 205). -/
def cataloguesIdNorm : Option (List Catalogue) → Except String (Option String)
  | none => Except.error pyIterErr
  | some l =>
      Except.ok (if l.isEmpty then none else some (String.intercalate "; " (l.map (fun d => toString d.id))))

/-- `lambda x: '; '.join([d['title'] for d in x]) if x else None`
(parser.py line 206). -/
def cataloguesNameNorm : Option (List Catalogue) → Except String (Option String)
  | none => Except.error pyIterErr
  | some l =>
      Except.ok (if l.isEmpty then none else some (String.intercalate "; " (l.map (fun d => d.title))))

/-- Which stages of the `main()` run succeed. Each field corresponds to one
`try`/`except` block of parser.py, in source order. -/
structure Scenario where
  dbConnectOk : Bool
  tokenOk : Bool
  fetchOk : Bool
  normalizeOk : Bool
  orgUpsertOk : Bool
  vacUpsertOk : Bool
  readBackOk : Bool
  matchOk : Bool
  writeBackOk : Bool
deriving DecidableEq, Repr

/-- Observable outcome of a run: the `sys.exit` code (0 when `main`
returns), the rows inserted into `vacs.sj_log`, and whether the two upsert
stages committed. -/
structure RunOutcome where
  exitCode : Nat
  logRows : List (Nat × String)
  orgsUpserted : Bool
  vacsUpserted : Bool
deriving DecidableEq, Repr

/-- Log message of the credential stage (parser.py line 107). -/
def msgToken : String := "Проблема с получение access_token"

/-- Log message of the fetch stage (line 148). -/
def msgFetch : String := "Проблема с полученим вакансий с API SuperJob"

/-- Log message of the normalization stage (line 223). -/
def msgNorm : String := "Проблема с формированием новых датафреймов"

/-- Log message of the organization-upsert stage (line 240). -/
def msgOrgs : String := "Не удалось выгрузить компании"

/-- Log message of the vacancy-upsert stage (line 255). -/
def msgVacs : String := "Не удалось выгрузить вакансии"

/-- Log message of the read-back stage (line 280). -/
def msgReadBack : String := "Проблема с получением таблиц: vacs.vacancies_sj, data.okpdtr"

/-- Log message shared by the matching stage (line 298) and the write-back
stage (line 318). -/
def msgOkpdtr : String := "Проблема с сопоставлением кодов ОКПДТР"

/-- Log message of the success marker (line 324). -/
def msgSuccess : String := "Данные были успешно загружены"

/-- Control flow of `main()` (parser.py lines 93-326): each stage in order,
first failure wins; every failing stage except the DB connection writes one
`vacs.sj_log` row and exits with its own code; success writes the
`exit_point = 0` row. A DB-connect failure (line 102) exits with code 1
without touching the log table. -/
def runMain (sc : Scenario) : RunOutcome :=
  if !sc.dbConnectOk then ⟨1, [], false, false⟩
  else if !sc.tokenOk then ⟨2, [(2, msgToken)], false, false⟩
  else if !sc.fetchOk then ⟨3, [(3, msgFetch)], false, false⟩
  else if !sc.normalizeOk then ⟨4, [(4, msgNorm)], false, false⟩
  else if !sc.orgUpsertOk then ⟨5, [(5, msgOrgs)], false, false⟩
  else if !sc.vacUpsertOk then ⟨6, [(6, msgVacs)], true, false⟩
  else if !sc.readBackOk then ⟨7, [(7, msgReadBack)], true, true⟩
  else if !sc.matchOk then ⟨8, [(8, msgOkpdtr)], true, true⟩
  else if !sc.writeBackOk then ⟨9, [(9, msgOkpdtr)], true, true⟩
  else ⟨0, [(0, msgSuccess)], true, true⟩

/-- The fully successful scenario. -/
def allOk : Scenario := ⟨true, true, true, true, true, true, true, true, true⟩

/-- The nine failure stages, in pipeline order. -/
inductive Stage where
  | dbConnect | token | fetch | normalize | orgUpsert | vacUpsert | readBack | matching | writeBack
deriving DecidableEq, Repr

/-- The exit code of each failure stage, as hard-coded in parser.py. -/
def stageCode : Stage → Nat
  | .dbConnect => 1
  | .token => 2
  | .fetch => 3
  | .normalize => 4
  | .orgUpsert => 5
  | .vacUpsert => 6
  | .readBack => 7
  | .matching => 8
  | .writeBack => 9

/-- The scenario in which exactly the given stage fails. -/
def failingOnly : Stage → Scenario
  | .dbConnect => { allOk with dbConnectOk := false }
  | .token => { allOk with tokenOk := false }
  | .fetch => { allOk with fetchOk := false }
  | .normalize => { allOk with normalizeOk := false }
  | .orgUpsert => { allOk with orgUpsertOk := false }
  | .vacUpsert => { allOk with vacUpsertOk := false }
  | .readBack => { allOk with readBackOk := false }
  | .matching => { allOk with matchOk := false }
  | .writeBack => { allOk with writeBackOk := false }

/-- One zero-padded decimal digit character. -/
def digitChar (n : Nat) : Char := Char.ofNat (48 + n % 10)

/-- The two-digit zero-padded field of `strftime` (`%m`, `%d`, `%H`, `%M`,
`%S`). -/
def pad2 (n : Nat) : String := String.mk [digitChar (n / 10), digitChar n]

/-- The four-digit zero-padded `%Y` field of `strftime`; `datetime`
restricts the year to 1..9999, where this is exact. -/
def pad4 (n : Nat) : String :=
  String.mk [digitChar (n / 1000), digitChar (n / 100), digitChar (n / 10), digitChar n]

/-- Proleptic-Gregorian civil date from a count of days since the Unix
epoch (the conversion performed inside `datetime.datetime.fromtimestamp`):
returns `(year, month, day)`. -/
def civilFromDays (z0 : Int) : Int × Int × Int :=
  let z := z0 + 719468
  let era : Int := Int.fdiv z 146097
  let doe : Int := z - era * 146097
  let yoe : Int := (doe - doe / 1460 + doe / 36524 - doe / 146096) / 365
  let y : Int := yoe + era * 400
  let doy : Int := doe - (365 * yoe + yoe / 4 - yoe / 100)
  let mp : Int := (5 * doy + 2) / 153
  let d : Int := doy - (153 * mp + 2) / 5 + 1
  let m : Int := if mp < 10 then mp + 3 else mp - 9
  (if m ≤ 2 then y + 1 else y, m, d)

/-- `datetime.datetime.fromtimestamp(t)` in a local zone `off` seconds
ahead of UTC: the civil `(year, month, day, hour, minute, second)`. -/
def fromtimestamp (off t : Int) : Int × Int × Int × Int × Int × Int :=
  let total := t + off
  let days := Int.fdiv total 86400
  let secs := total - days * 86400
  let c := civilFromDays days
  (c.1, c.2.1, c.2.2, secs / 3600, (secs % 3600) / 60, secs % 60)

/-- `datetime.datetime.fromtimestamp(t).strftime('%Y-%m-%d %H:%M:%S')`
(parser.py lines 172 and 214-216). -/
def fromtimestampStr (off t : Int) : String :=
  match fromtimestamp off t with
  | (y, m, d, hh, mi, ss) =>
      pad4 y.toNat ++ "-" ++ pad2 m.toNat ++ "-" ++ pad2 d.toNat ++ " " ++
        pad2 hh.toNat ++ ":" ++ pad2 mi.toNat ++ ":" ++ pad2 ss.toNat

/-- Checks the fixed civil-datetime shape `YYYY-MM-DD HH:MM:SS`: 19
characters, digits in the numeric positions, the literal separators
elsewhere. -/
def dtFormatOk (l : List Char) : Bool :=
  match l with
  | [y1, y2, y3, y4, s1, m1, m2, s2, d1, d2, s3, h1, h2, s4, n1, n2, s5, c1, c2] =>
      y1.isDigit && y2.isDigit && y3.isDigit && y4.isDigit && (s1 == '-') &&
      m1.isDigit && m2.isDigit && (s2 == '-') && d1.isDigit && d2.isDigit &&
      (s3 == ' ') && h1.isDigit && h2.isDigit && (s4 == ':') && n1.isDigit &&
      n2.isDigit && (s5 == ':') && c1.isDigit && c2.isDigit
  | _ => false

/-- `registered_date` lambda (parser.py line 172): convert when non-null,
pass null through. -/
def normRegisteredDate (off : Int) (x : Option Int) : Option String :=
  match x with
  | some t => some (fromtimestampStr off t)
  | none => none

/-- The unconditional conversion applied to `date_pub_to`,
`date_published` and `date_archived` (parser.py lines 214-216): a null
cell feeds NaN to `fromtimestamp`, which raises. -/
def normVacancyDate (off : Int) (x : Option Int) : Except String String :=
  match x with
  | some t => Except.ok (fromtimestampStr off t)
  | none => Except.error "ValueError: cannot convert NaN timestamp"

/-- The three vacancy date columns of one row, in source order. -/
def vacDatesTriple (off : Int) (r : Option Int × Option Int × Option Int) :
    Except String (String × String × String) :=
  match normVacancyDate off r.1 with
  | Except.error e => Except.error e
  | Except.ok a =>
      match normVacancyDate off r.2.1 with
      | Except.error e => Except.error e
      | Except.ok b =>
          match normVacancyDate off r.2.2 with
          | Except.error e => Except.error e
          | Except.ok c => Except.ok (a, b, c)

/-- `Series.apply` over a column: stop at the first raising element, as the
pandas apply does. -/
def mapME (f : α → Except String β) : List α → Except String (List β)
  | [] => Except.ok []
  | a :: l =>
      match f a with
      | Except.error e => Except.error e
      | Except.ok b =>
          match mapME f l with
          | Except.error e => Except.error e
          | Except.ok bs => Except.ok (b :: bs)

/-- The date part of the vacancy normalization stage over all rows. -/
def vacDatesStage (off : Int) (rows : List (Option Int × Option Int × Option Int)) :
    Except String (List (String × String × String)) :=
  mapME (vacDatesTriple off) rows

/-- Whether an `Except` carries a success value. -/
def isOkE (x : Except String α) : Bool :=
  match x with
  | Except.ok _ => true
  | Except.error _ => false

/-- The similarity cutoff (parser.py line 17). -/
def SIMILARITY_LEVEL_OKPDTR : Nat := 75

/-- The scan inside `rapidfuzz.process.extractOne`: best-scoring choice,
the earlier choice winning ties. The scorer argument models
`fuzz.token_set_ratio`, an external-library token-set similarity on the
0-100 scale. -/
def scanBest (scorer : String → String → Nat) (q : String) : List String → Option (String × Nat)
  | [] => none
  | c :: cs =>
      match scanBest scorer q cs with
      | none => some (c, scorer q c)
      | some p => if p.2 ≤ scorer q c then some (c, scorer q c) else some p

/-- `process.extractOne(query, choices, scorer=..., score_cutoff=...)`
(parser.py line 294): the highest-scoring choice when its score reaches
the cutoff, `None` otherwise. -/
def extractOne (scorer : String → String → Nat) (q : String) (choices : List String)
    (cutoff : Nat) : Option (String × Nat) :=
  match scanBest scorer q choices with
  | none => none
  | some p => if cutoff ≤ p.2 then some p else none

/-- One vacancy's match resolution (parser.py lines 291-296 and 304-308):
run `extractOne` over the classification names and, when a match is
produced, resolve the matched name to its code through `okpdtr_dict`
(modelled by `List.lookup`; the reconciliation theorems assume the
classification names are pairwise distinct, which makes the dict built by
`set_index('name').to_dict()` agree with `lookup`). -/
def matchOne (scorer : String → String → Nat) (okpdtr : List (String × Int))
    (prof : String) : Option Int :=
  match extractOne scorer prof (okpdtr.map Prod.fst) SIMILARITY_LEVEL_OKPDTR with
  | none => none
  | some p => okpdtr.lookup p.1

/-- The resolved `(vacancy id, classification code)` pairs written back to
the database (parser.py lines 291-312): the match list filtered to the
vacancies with a produced match, each mapped through the name-to-code
dict. -/
def assignedCodes (scorer : String → String → Nat) (vacs : List (Int × String))
    (okpdtr : List (String × Int)) : List (Int × Int) :=
  vacs.filterMap (fun kv => (matchOne scorer okpdtr kv.2).map (fun code => (kv.1, code)))

/-- An exact-equality scorer, used only to exercise the matcher theorem on
a concrete input. -/
def exactScorer (a b : String) : Nat := if a = b then 100 else 0

/-- One row of `vacs.vacancies_sj` as touched by the reconciliation pass:
primary key `id`, the profession text, the nullable classification code
and the `is_matched` flag. -/
structure VacRow where
  id : Int
  profession : String
  id_okpdtr : Option Int
  is_matched : Bool
deriving DecidableEq, Repr

/-- `select id, profession from vacs.vacancies_sj where is_matched = false`
(parser.py lines 271-274). -/
def readBack (db : List VacRow) : List (Int × String) :=
  (db.filter (fun r => !r.is_matched)).map (fun r => (r.id, r.profession))

/-- `UPDATE vacs.vacancies_sj SET id_okpdtr = :value WHERE id = :key`
(parser.py line 312). -/
def setCode (db : List VacRow) (k v : Int) : List VacRow :=
  db.map (fun r => if r.id = k then { r with id_okpdtr := some v } else r)

/-- `UPDATE vacs.vacancies_sj SET is_matched = true WHERE id = :key`
(parser.py line 316). -/
def setMatched (db : List VacRow) (k : Int) : List VacRow :=
  db.map (fun r => if r.id = k then { r with is_matched := true } else r)

/-- The first write-back transaction (parser.py lines 310-312): one code
update per resolved match, in list order. -/
def writeCodes (db : List VacRow) (ms : List (Int × Int)) : List VacRow :=
  ms.foldl (fun d kv => setCode d kv.1 kv.2) db

/-- The second write-back transaction (parser.py lines 314-316): one
`is_matched = true` update per processed vacancy id. -/
def writeFlags (db : List VacRow) (ids : List Int) : List VacRow :=
  ids.foldl setMatched db

/-- One HTTP GET issued by `get_vacancies`, reified as data: the URL, the
headers and the query parameters in source order. -/
structure HttpRequest where
  url : String
  headers : List (String × String)
  queryParams : List (String × Int)
deriving DecidableEq, Repr

/-- The requests issued by one `get_vacancies(access_token, client_secret,
catalogues_id, page)` call (parser.py lines 70-90): one GET per category
id, each carrying the `X-Api-App-Id` and bearer-authorization headers and
the params dict `{'peroid': 0, 'town': 13, 'count': 100, 'catalogues':
catalogue_id, 'page': page}` — note the misspelled `peroid` key in the
source. -/
def vacancyRequests (access_token client_secret : String) (catalogues_id : List Int)
    (page : Int) : List HttpRequest :=
  catalogues_id.map (fun catalogue_id =>
    { url := "https://api.superjob.ru/2.20/vacancies/"
      headers := [("X-Api-App-Id", client_secret),
                  ("Authorization", "Bearer " ++ access_token)]
      queryParams := [("peroid", 0), ("town", 13), ("count", 100),
                      ("catalogues", catalogue_id), ("page", page)] })

/-- The fetch stage fan-out (parser.py lines 129-143): pages 0..4, each
page calling `get_vacancies` over the full category list; the per-page
results are concatenated into one collection after the pool joins. -/
def fetchAllPagesRequests (access_token client_secret : String)
    (catalogues_id : List Int) : List HttpRequest :=
  ((List.range 5).map (fun page =>
    vacancyRequests access_token client_secret catalogues_id (Int.ofNat page))).flatten

theorem mem_of_mem_dedupGo (x : RawRow) :
    ∀ (l : List RawRow) (seen : List (Option Int)), x ∈ dedupGo seen l → x ∈ l := by
  intro l
  induction l with
  | nil => intro seen h; simp [dedupGo] at h
  | cons r rs ih =>
      intro seen h
      rw [dedupGo] at h
      by_cases hseen : r.id ∈ seen
      · rw [if_pos hseen] at h
        exact List.mem_cons_of_mem r (ih seen h)
      · rw [if_neg hseen] at h
        rcases List.mem_cons.mp h with h1 | h2
        · exact h1 ▸ List.mem_cons_self r rs
        · exact List.mem_cons_of_mem r (ih _ h2)

theorem dedupGo_id_not_seen (x : RawRow) :
    ∀ (l : List RawRow) (seen : List (Option Int)), x ∈ dedupGo seen l → x.id ∉ seen := by
  intro l
  induction l with
  | nil => intro seen h; simp [dedupGo] at h
  | cons r rs ih =>
      intro seen h
      rw [dedupGo] at h
      by_cases hseen : r.id ∈ seen
      · rw [if_pos hseen] at h
        exact ih seen h
      · rw [if_neg hseen] at h
        rcases List.mem_cons.mp h with h1 | h2
        · exact h1 ▸ hseen
        · intro hx
          exact ih _ h2 (List.mem_cons_of_mem _ hx)

theorem dedupGo_nodup_ids :
    ∀ (l : List RawRow) (seen : List (Option Int)),
      ((dedupGo seen l).map (fun r => r.id)).Nodup := by
  intro l
  induction l with
  | nil => intro seen; simp [dedupGo]
  | cons r rs ih =>
      intro seen
      rw [dedupGo]
      by_cases hseen : r.id ∈ seen
      · rw [if_pos hseen]; exact ih seen
      · rw [if_neg hseen]
        simp only [List.map_cons, List.nodup_cons]
        refine ⟨?_, ih _⟩
        intro hmem
        rcases List.mem_map.mp hmem with ⟨x, hx, hid⟩
        exact dedupGo_id_not_seen x rs _ hx (hid ▸ List.mem_cons_self _ _)

theorem dedupGo_covers (r : RawRow) :
    ∀ (l : List RawRow) (seen : List (Option Int)), r ∈ l →
      r.id ∈ seen ∨ ∃ s ∈ dedupGo seen l, s.id = r.id := by
  intro l
  induction l with
  | nil => intro seen h; simp at h
  | cons q rs ih =>
      intro seen h
      rw [dedupGo]
      by_cases hseen : q.id ∈ seen
      · rw [if_pos hseen]
        rcases List.mem_cons.mp h with h1 | h2
        · exact Or.inl (h1 ▸ hseen)
        · exact ih seen h2
      · rw [if_neg hseen]
        rcases List.mem_cons.mp h with h1 | h2
        · exact Or.inr ⟨q, List.mem_cons_self _ _, by rw [h1]⟩
        · rcases ih (q.id :: seen) h2 with hin | ⟨s, hs, hsid⟩
          · rcases List.mem_cons.mp hin with h3 | h4
            · exact Or.inr ⟨q, List.mem_cons_self _ _, h3.symm⟩
            · exact Or.inl h4
          · exact Or.inr ⟨s, List.mem_cons_of_mem _ hs, hsid⟩

theorem dedupGo_first_occurrence (s : RawRow) :
    ∀ (l : List RawRow) (seen : List (Option Int)), s ∈ dedupGo seen l →
      l.find? (fun x => x.id == s.id) = some s := by
  intro l
  induction l with
  | nil => intro seen h; simp [dedupGo] at h
  | cons r rs ih =>
      intro seen h
      rw [dedupGo] at h
      by_cases hseen : r.id ∈ seen
      · rw [if_pos hseen] at h
        have hne : ¬ (r.id = s.id) := by
          intro he
          exact dedupGo_id_not_seen s rs seen h (he ▸ hseen)
        rw [List.find?_cons_of_neg _ (by simpa using hne)]
        exact ih seen h
      · rw [if_neg hseen] at h
        rcases List.mem_cons.mp h with h1 | h2
        · subst h1
          exact List.find?_cons_of_pos _ (by simp)
        · have hne : ¬ (r.id = s.id) := by
            intro he
            exact dedupGo_id_not_seen s rs _ h2 (he ▸ List.mem_cons_self _ _)
          rw [List.find?_cons_of_neg _ (by simpa using hne)]
          exact ih _ h2

/-- C1, counterexample. The claim says the fetch-stage dedup keeps the last
occurrence of each duplicated id. On the collection `[rowA, rowB]`, both
rows sharing id 1 and `rowB` being the last occurrence,
`drop_duplicates(subset=[ 'id' ])` (pandas default `keep='first'`) keeps
`rowA`, the first occurrence, not `rowB`. -/
theorem c1_dedup_last_cex :
    dedupById [rowA, rowB] = [rowA] ∧ rowA ≠ rowB := by
  constructor
  · rfl
  · decide

/-- C1, amended: the fetch-stage deduplication keeps exactly one row per
listing id, and the surviving row is the first occurrence in traversal
order of the merged collection (pandas `drop_duplicates` default
`keep='first'`), not the last. -/
theorem c1_dedup_keeps_first (rows : List RawRow) :
    ((dedupById rows).map (fun r => r.id)).Nodup ∧
    (∀ r ∈ rows, ∃ s ∈ dedupById rows, s.id = r.id) ∧
    (∀ s ∈ dedupById rows, s ∈ rows ∧
      rows.find? (fun x => x.id == s.id) = some s) := by
  refine ⟨dedupGo_nodup_ids rows [], ?_, ?_⟩
  · intro r hr
    rcases dedupGo_covers r rows [] hr with hin | hex
    · simp at hin
    · exact hex
  · intro s hs
    exact ⟨mem_of_mem_dedupGo s rows [] hs, dedupGo_first_occurrence s rows [] hs⟩

/-- C1 witness: on `[rowA, rowB]` the surviving row `rowA` is found by
`find?` as the first occurrence of id 1. -/
theorem c1_dedup_keeps_first_witness :
    [rowA, rowB].find? (fun x => x.id == rowA.id) = some rowA :=
  ((c1_dedup_keeps_first [rowA, rowB]).2.2 rowA (by decide)).2

/-- C2: the claim (and the spec) say a raw payment value of 0 normalizes to
null. In the code the zero check is a no-op (`(not pd.isnull(x)) != 0`
compares the boolean, not `x`, with 0), so a raw 0 passes through as 0;
only null maps to null. This theorem evaluates the embedded lambda at the
failing input 0 and at the other claimed inputs. -/
theorem c2_payment_zero_passthrough :
    paymentNorm (some 0) = some 0 ∧
    paymentNorm none = none ∧
    (∀ v : Int, paymentNorm (some v) = some v) := by
  refine ⟨rfl, rfl, ?_⟩
  intro v
  rfl

/-- C8: after the fetch-stage post-processing (dedup by id, drop
`id_client == 0`, drop null id — parser.py lines 144-146) the surviving
record set satisfies the three invariants: no null id, pairwise distinct
ids, and no owning-organization id equal to 0. The vacancy dataframe is a
column projection of this set, row for row, so the invariants carry over
to the normalized Vacancy set. -/
theorem c8_vacancy_invariants (rows : List RawRow) :
    (∀ r ∈ fetchPostprocess rows, r.id ≠ none) ∧
    ((fetchPostprocess rows).map (fun r => r.id)).Nodup ∧
    (∀ r ∈ fetchPostprocess rows, r.id_client ≠ some 0) := by
  refine ⟨?_, ?_, ?_⟩
  · intro r hr
    have := List.of_mem_filter hr
    simp only [Option.isSome_iff_exists] at this
    rcases this with ⟨v, hv⟩
    simp [hv]
  · have hsub : List.Sublist (fetchPostprocess rows) (dedupById rows) := by
      unfold fetchPostprocess dropnaId filterClientNonzero
      exact List.Sublist.trans (List.filter_sublist _) (List.filter_sublist _)
    exact (dedupGo_nodup_ids rows []).sublist (hsub.map (fun r => r.id))
  · intro r hr
    have hr2 : r ∈ filterClientNonzero (dedupById rows) := List.mem_of_mem_filter hr
    have := List.of_mem_filter hr2
    simp only [Bool.not_eq_true', beq_eq_false_iff_ne, ne_eq] at this
    exact this

/-- C8 witness: a concrete collection with a duplicate id, a null id and a
zero `id_client` satisfies all three invariants after post-processing. -/
theorem c8_vacancy_invariants_witness :
    (⟨some 2, some 3, 4⟩ : RawRow).id ≠ none ∧
    (⟨some 2, some 3, 4⟩ : RawRow).id_client ≠ some 0 := by
  have h := c8_vacancy_invariants [⟨some 1, some 0, 0⟩, ⟨none, some 5, 1⟩, ⟨some 2, some 3, 4⟩]
  exact ⟨h.1 ⟨some 2, some 3, 4⟩ (by decide), h.2.2 ⟨some 2, some 3, 4⟩ (by decide)⟩

/-- C7, counterexample. The claim says an empty or absent list yields null.
For an absent (NaN) driving-licence cell the lambda raises instead of
producing null (and the same holds for the other list-valued lambdas). -/
theorem c7_absent_list_cex :
    drivingLicenceNorm none = Except.error pyLenErr ∧
    drivingLicenceNorm none ≠ Except.ok none ∧
    metroNorm none ≠ Except.ok none := by
  refine ⟨rfl, ?_, ?_⟩
  · intro h
    exact Except.noConfusion h
  · intro h
    exact Except.noConfusion h

/-- C7, amended: nested sub-object fields normalize to the sub-object's
display-title attribute when the sub-object is present and to null
otherwise; list-valued fields join element titles or ids with "; " (metro
stations, category tag ids, category tag names) or ", " (driving-licence
categories); an empty list yields null, but an absent (NaN) list makes the
lambda raise, aborting the normalization stage, rather than yielding null. -/
theorem c7_flatten_rules :
    (∀ o : TitledObj, getTitle (some o) = o.title) ∧
    getTitle none = none ∧
    drivingLicenceNorm (some []) = Except.ok none ∧
    (∀ l : List String, l ≠ [] →
      drivingLicenceNorm (some l) = Except.ok (some (String.intercalate ", " l))) ∧
    metroNorm (some []) = Except.ok none ∧
    (∀ l : List MetroSt, l ≠ [] →
      metroNorm (some l) = Except.ok (some (String.intercalate "; " (l.map (fun d => d.title))))) ∧
    cataloguesIdNorm (some []) = Except.ok none ∧
    (∀ l : List Catalogue, l ≠ [] →
      cataloguesIdNorm (some l) = Except.ok (some (String.intercalate "; " (l.map (fun d => toString d.id))))) ∧
    cataloguesNameNorm (some []) = Except.ok none ∧
    (∀ l : List Catalogue, l ≠ [] →
      cataloguesNameNorm (some l) = Except.ok (some (String.intercalate "; " (l.map (fun d => d.title))))) ∧
    (∀ ls : Option (List String), ls.isNone →
      drivingLicenceNorm ls = Except.error pyLenErr) := by
  refine ⟨fun o => rfl, rfl, rfl, ?_, rfl, ?_, rfl, ?_, rfl, ?_, ?_⟩
  · intro l hl
    simp [drivingLicenceNorm, List.isEmpty_iff, hl]
  · intro l hl
    simp [metroNorm, List.isEmpty_iff, hl]
  · intro l hl
    simp [cataloguesIdNorm, List.isEmpty_iff, hl]
  · intro l hl
    simp [cataloguesNameNorm, List.isEmpty_iff, hl]
  · intro ls hls
    cases ls with
    | none => rfl
    | some l => simp at hls

/-- C7 witness: the spec's round-trip example (education title "Высшее")
and a concrete two-element metro join. -/
theorem c7_flatten_rules_witness :
    getTitle (some ⟨some "Высшее"⟩) = some "Высшее" ∧
    metroNorm (some [⟨"Маяковская"⟩, ⟨"Тверская"⟩]) =
      Except.ok (some "Маяковская; Тверская") := by
  refine ⟨c7_flatten_rules.1 ⟨some "Высшее"⟩, ?_⟩
  have h := (c7_flatten_rules.2.2.2.2.2.1) [⟨"Маяковская"⟩, ⟨"Тверская"⟩] (by decide)
  simpa [String.intercalate] using h

/-- C5, counterexample. The claim says every terminal outcome writes
exactly one run-log row. The DB-connect failure is a terminal outcome
(exit code 1) that writes no run-log row at all — parser.py lines 96-102
have no `INSERT INTO vacs.sj_log` because no connection exists. -/
theorem c5_dbconnect_no_logrow_cex :
    (runMain { allOk with dbConnectOk := false }).exitCode = 1 ∧
    (runMain { allOk with dbConnectOk := false }).logRows.length = 0 := by
  decide

/-- C5, amended: every terminal outcome other than a DB-connect failure
writes exactly one run-log row whose exit_point equals the process exit
code — 0 on full success and a distinct positive integer (2-9) per failing
stage; a DB-connect failure exits with its own distinct code 1 but writes
no run-log row. -/
theorem c5_runlog_rows :
    (∀ a b c d e f g h i : Bool,
      (a = true →
        (runMain (Scenario.mk a b c d e f g h i)).logRows.length = 1 ∧
        (runMain (Scenario.mk a b c d e f g h i)).logRows.map Prod.fst =
          [(runMain (Scenario.mk a b c d e f g h i)).exitCode] ∧
        ((runMain (Scenario.mk a b c d e f g h i)).exitCode = 0 ↔
          Scenario.mk a b c d e f g h i = allOk) ∧
        (runMain (Scenario.mk a b c d e f g h i)).exitCode ≤ 9) ∧
      (a = false →
        (runMain (Scenario.mk a b c d e f g h i)).exitCode = 1 ∧
        (runMain (Scenario.mk a b c d e f g h i)).logRows = [])) ∧
    (∀ st : Stage, (runMain (failingOnly st)).exitCode = stageCode st ∧ 1 ≤ stageCode st) ∧
    ([Stage.dbConnect, .token, .fetch, .normalize, .orgUpsert, .vacUpsert,
      .readBack, .matching, .writeBack].map stageCode).Nodup := by
  refine ⟨by decide, ?_, by decide⟩
  intro st
  cases st <;> exact ⟨rfl, by decide⟩

/-- C5 witness: the fetch-failure outcome writes exactly the row
`(3, msgFetch)` and exits with code 3. -/
theorem c5_runlog_rows_witness :
    (runMain (Scenario.mk true true false true true true true true true)).logRows.length = 1 ∧
    (runMain (Scenario.mk true true false true true true true true true)).logRows.map Prod.fst =
      [(runMain (Scenario.mk true true false true true true true true true)).exitCode] := by
  have h := (c5_runlog_rows.1 true true false true true true true true true).1 rfl
  exact ⟨h.1, h.2.1⟩

theorem digitChar_isDigit (n : Nat) : (digitChar n).isDigit = true := by
  have hb : ∀ k, k < 10 → (Char.ofNat (48 + k)).isDigit = true := by decide
  exact hb (n % 10) (Nat.mod_lt n (by norm_num))

theorem dtFormatOk_fromtimestampStr (off t : Int) :
    dtFormatOk (fromtimestampStr off t).data = true := by
  rcases h : fromtimestamp off t with ⟨y, m, d, hh, mi, ss⟩
  simp only [fromtimestampStr, h, pad4, pad2]
  have hx : ∀ a b c d e f g p q r s u v w : Char,
      (String.mk [a, b, c, d] ++ "-" ++ String.mk [e, f] ++ "-" ++ String.mk [g, p] ++ " " ++
        String.mk [q, r] ++ ":" ++ String.mk [s, u] ++ ":" ++ String.mk [v, w]).data =
      [a, b, c, d, '-', e, f, '-', g, p, ' ', q, r, ':', s, u, ':', v, w] := by
    intro a b c d e f g p q r s u v w
    rfl
  rw [hx]
  simp [dtFormatOk, digitChar_isDigit]

theorem vacDatesStage_error_of_null (off : Int)
    (rows : List (Option Int × Option Int × Option Int))
    (row : Option Int × Option Int × Option Int) (hmem : row ∈ rows)
    (hnull : row.1 = none ∨ row.2.1 = none ∨ row.2.2 = none) :
    isOkE (vacDatesStage off rows) = false := by
  have htrip : isOkE (vacDatesTriple off row) = false := by
    rcases row with ⟨a, b, c⟩
    rcases hnull with h1 | h2 | h3
    · simp only at h1
      subst h1
      rfl
    · simp only at h2
      subst h2
      cases a with
      | none => rfl
      | some t => rfl
    · simp only at h3
      subst h3
      cases a with
      | none => rfl
      | some t =>
          cases b with
          | none => rfl
          | some u => rfl
  induction rows with
  | nil => simp at hmem
  | cons r rs ih =>
      rcases List.mem_cons.mp hmem with h1 | h2
      · subst h1
        unfold vacDatesStage mapME
        rcases he : vacDatesTriple off row with e | v
        · rfl
        · rw [he] at htrip
          simp [isOkE] at htrip
      · unfold vacDatesStage mapME
        rcases he : vacDatesTriple off r with e | v
        · rfl
        · have := ih h2
          unfold vacDatesStage at this
          rcases hm : mapME (vacDatesTriple off) rs with e2 | v2
          · rfl
          · rw [hm] at this
            simp [isOkE] at this

/-- C6: Unix timestamps are rendered through
`fromtimestamp(...).strftime('%Y-%m-%d %H:%M:%S')`, always producing the
fixed `YYYY-MM-DD HH:MM:SS` shape; the organization `registered_date`
passes null through (line 172 guards with `pd.isnull`), but the three
vacancy date fields are converted unconditionally (lines 214-216), so a
null value in any of them aborts the stage, and the orchestrator then
exits with the normalization-failure code 4 before any upsert runs. -/
theorem c6_timestamp_rules :
    (∀ off : Int, normRegisteredDate off none = none) ∧
    (∀ off t : Int,
      normRegisteredDate off (some t) = some (fromtimestampStr off t) ∧
      normVacancyDate off (some t) = Except.ok (fromtimestampStr off t) ∧
      dtFormatOk (fromtimestampStr off t).data = true) ∧
    (∀ (off : Int) (rows : List (Option Int × Option Int × Option Int))
        (row : Option Int × Option Int × Option Int), row ∈ rows →
      (row.1 = none ∨ row.2.1 = none ∨ row.2.2 = none) →
      isOkE (vacDatesStage off rows) = false) ∧
    (runMain { allOk with normalizeOk := false } =
      ⟨4, [(4, msgNorm)], false, false⟩) := by
  refine ⟨fun off => rfl, ?_, vacDatesStage_error_of_null, by decide⟩
  intro off t
  exact ⟨rfl, rfl, dtFormatOk_fromtimestampStr off t⟩

/-- C6 witness: a row whose publish date is null makes the date stage
fail; a concrete timestamp renders in the fixed format. -/
theorem c6_timestamp_rules_witness :
    isOkE (vacDatesStage 0 [(some 0, some 0, some 0), (none, some 10, some 20)]) = false ∧
    dtFormatOk (fromtimestampStr 0 0).data = true := by
  refine ⟨?_, (c6_timestamp_rules.2.1 0 0).2.2⟩
  exact c6_timestamp_rules.2.2.1 0 _ (none, some 10, some 20) (by decide) (Or.inl rfl)

theorem scanBest_eq_none_iff (scorer : String → String → Nat) (q : String) :
    ∀ l : List String, scanBest scorer q l = none ↔ l = [] := by
  intro l
  cases l with
  | nil => simp [scanBest]
  | cons c cs =>
      simp only [scanBest]
      rcases h : scanBest scorer q cs with _ | p
      · simp
      · by_cases hle : p.2 ≤ scorer q c <;> simp [hle]

theorem scanBest_spec (scorer : String → String → Nat) (q : String) :
    ∀ (l : List String) (p : String × Nat), scanBest scorer q l = some p →
      p.1 ∈ l ∧ p.2 = scorer q p.1 ∧ ∀ c ∈ l, scorer q c ≤ p.2 := by
  intro l
  induction l with
  | nil => intro p h; simp [scanBest] at h
  | cons c cs ih =>
      intro p h
      rw [scanBest] at h
      rcases h0 : scanBest scorer q cs with _ | p0
      · rw [h0] at h
        have hcs : cs = [] := (scanBest_eq_none_iff scorer q cs).mp h0
        subst hcs
        simp only [Option.some.injEq] at h
        subst h
        refine ⟨List.mem_cons_self _ _, rfl, ?_⟩
        intro x hx
        rcases List.mem_cons.mp hx with h1 | h2
        · subst h1; exact Nat.le_refl _
        · simp at h2
      · rw [h0] at h
        dsimp only at h
        rcases ih p0 h0 with ⟨hm0, he0, hall0⟩
        by_cases hle : p0.2 ≤ scorer q c
        · rw [if_pos hle] at h
          simp only [Option.some.injEq] at h
          subst h
          refine ⟨List.mem_cons_self _ _, rfl, ?_⟩
          intro x hx
          rcases List.mem_cons.mp hx with h1 | h2
          · subst h1; exact Nat.le_refl _
          · exact Nat.le_trans (hall0 x h2) hle
        · rw [if_neg hle] at h
          simp only [Option.some.injEq] at h
          subst h
          refine ⟨List.mem_cons_of_mem _ hm0, he0, ?_⟩
          intro x hx
          rcases List.mem_cons.mp hx with h1 | h2
          · subst h1; exact Nat.le_of_lt (Nat.lt_of_not_le hle)
          · exact hall0 x h2

theorem extractOne_some_spec (scorer : String → String → Nat) (q : String)
    (choices : List String) (cutoff : Nat) (p : String × Nat)
    (h : extractOne scorer q choices cutoff = some p) :
    p.1 ∈ choices ∧ p.2 = scorer q p.1 ∧ cutoff ≤ p.2 ∧
      ∀ c ∈ choices, scorer q c ≤ p.2 := by
  unfold extractOne at h
  rcases h0 : scanBest scorer q choices with _ | p0
  · rw [h0] at h; exact absurd h (by simp)
  · rw [h0] at h
    dsimp only at h
    by_cases hc : cutoff ≤ p0.2
    · rw [if_pos hc] at h
      simp only [Option.some.injEq] at h
      subst h
      rcases scanBest_spec scorer q choices p0 h0 with ⟨h1, h2, h3⟩
      exact ⟨h1, h2, hc, h3⟩
    · rw [if_neg hc] at h
      exact absurd h (by simp)

theorem extractOne_isSome_of_exists (scorer : String → String → Nat) (q : String)
    (choices : List String) (cutoff : Nat) (n : String) (hn : n ∈ choices)
    (hs : cutoff ≤ scorer q n) :
    ∃ p, extractOne scorer q choices cutoff = some p := by
  rcases h0 : scanBest scorer q choices with _ | p0
  · have : choices = [] := (scanBest_eq_none_iff scorer q choices).mp h0
    subst this
    simp at hn
  · rcases scanBest_spec scorer q choices p0 h0 with ⟨_, _, hall⟩
    have hc : cutoff ≤ p0.2 := Nat.le_trans hs (hall n hn)
    exact ⟨p0, by unfold extractOne; rw [h0]; dsimp only; rw [if_pos hc]⟩

theorem lookup_some_of_mem_keys (l : List (String × Int)) (n : String)
    (h : n ∈ l.map Prod.fst) : ∃ v, l.lookup n = some v := by
  induction l with
  | nil => simp at h
  | cons kv tl ih =>
      by_cases he : n = kv.1
      · exact ⟨kv.2, by rcases kv with ⟨a, b⟩; simp [List.lookup, he]⟩
      · have : n ∈ tl.map Prod.fst := by
          rcases List.mem_map.mp h with ⟨x, hx, hfx⟩
          rcases List.mem_cons.mp hx with h1 | h2
          · exact absurd (h1 ▸ hfx).symm he
          · exact List.mem_map.mpr ⟨x, h2, hfx⟩
        rcases ih this with ⟨v, hv⟩
        refine ⟨v, ?_⟩
        rcases kv with ⟨a, b⟩
        simp only at he
        have hbe : (n == a) = false := by
          simp [he]
        simp [List.lookup, hbe, hv]

theorem keys_nodup_val_unique (l : List (Int × String))
    (hn : (l.map Prod.fst).Nodup) (k : Int) (a b : String)
    (ha : (k, a) ∈ l) (hb : (k, b) ∈ l) : a = b := by
  induction l with
  | nil => simp at ha
  | cons kv tl ih =>
      simp only [List.map_cons, List.nodup_cons] at hn
      rcases List.mem_cons.mp ha with h1 | h2 <;> rcases List.mem_cons.mp hb with h3 | h4
      · rw [← h1] at h3
        exact (Prod.mk.injEq _ _ _ _ ▸ h3).2.symm
      · exfalso
        apply hn.1
        exact List.mem_map.mpr ⟨(k, b), h4, by rw [← h1]⟩
      · exfalso
        apply hn.1
        exact List.mem_map.mpr ⟨(k, a), h2, by rw [← h3]⟩
      · exact ih hn.2 h2 h4

theorem mem_assignedCodes_iff (scorer : String → String → Nat)
    (vacs : List (Int × String)) (okpdtr : List (String × Int)) (k : Int)
    (prof : String) (hv : (vacs.map Prod.fst).Nodup) (hkv : (k, prof) ∈ vacs)
    (code : Int) :
    (k, code) ∈ assignedCodes scorer vacs okpdtr ↔
      matchOne scorer okpdtr prof = some code := by
  constructor
  · intro h
    rcases List.mem_filterMap.mp h with ⟨kv, hmem, heq⟩
    rcases Option.map_eq_some'.mp heq with ⟨c, hc, hpair⟩
    have hk : kv.1 = k := (Prod.mk.injEq _ _ _ _ ▸ hpair).1
    have hcode : c = code := (Prod.mk.injEq _ _ _ _ ▸ hpair).2
    have hprof : kv.2 = prof := by
      refine keys_nodup_val_unique vacs hv k kv.2 prof ?_ hkv
      rw [← hk]
      exact hmem
    rw [← hprof, ← hcode]
    exact hc
  · intro h
    exact List.mem_filterMap.mpr ⟨(k, prof), hkv, by rw [h]; rfl⟩

/-- C3: for every unmatched vacancy, the pipeline scores its profession
string against every eligible classification name with the (token-set)
scorer, keeps the single highest-scoring name, and assigns a
classification code if and only if that highest score reaches
`SIMILARITY_LEVEL_OKPDTR` (75); the assigned code is the index entry of a
maximal-scoring name at or above the cutoff. -/
theorem c3_matcher_threshold (scorer : String → String → Nat)
    (okpdtr : List (String × Int)) (vacs : List (Int × String)) (k : Int)
    (prof : String) (_hok : (okpdtr.map Prod.fst).Nodup)
    (hv : (vacs.map Prod.fst).Nodup) (hkv : (k, prof) ∈ vacs) :
    ((∃ code, (k, code) ∈ assignedCodes scorer vacs okpdtr) ↔
      ∃ n ∈ okpdtr.map Prod.fst, SIMILARITY_LEVEL_OKPDTR ≤ scorer prof n) ∧
    (∀ code, (k, code) ∈ assignedCodes scorer vacs okpdtr →
      ∃ n ∈ okpdtr.map Prod.fst,
        okpdtr.lookup n = some code ∧
        SIMILARITY_LEVEL_OKPDTR ≤ scorer prof n ∧
        ∀ m ∈ okpdtr.map Prod.fst, scorer prof m ≤ scorer prof n) := by
  have hsome : ∀ code, matchOne scorer okpdtr prof = some code →
      ∃ p, extractOne scorer prof (okpdtr.map Prod.fst) SIMILARITY_LEVEL_OKPDTR = some p ∧
        okpdtr.lookup p.1 = some code := by
    intro code h
    unfold matchOne at h
    rcases he : extractOne scorer prof (okpdtr.map Prod.fst) SIMILARITY_LEVEL_OKPDTR with _ | p
    · rw [he] at h; exact absurd h (by simp)
    · rw [he] at h; exact ⟨p, rfl, h⟩
  constructor
  · constructor
    · intro ⟨code, hc⟩
      have hm := (mem_assignedCodes_iff scorer vacs okpdtr k prof hv hkv code).mp hc
      rcases hsome code hm with ⟨p, hp, _⟩
      rcases extractOne_some_spec scorer prof _ _ p hp with ⟨h1, h2, h3, _⟩
      exact ⟨p.1, h1, h2 ▸ h3⟩
    · intro ⟨n, hn, hs⟩
      rcases extractOne_isSome_of_exists scorer prof _ _ n hn hs with ⟨p, hp⟩
      rcases extractOne_some_spec scorer prof _ _ p hp with ⟨h1, _, _, _⟩
      rcases lookup_some_of_mem_keys okpdtr p.1 h1 with ⟨v, hval⟩
      refine ⟨v, (mem_assignedCodes_iff scorer vacs okpdtr k prof hv hkv v).mpr ?_⟩
      unfold matchOne
      rw [hp]
      exact hval
  · intro code hc
    have hm := (mem_assignedCodes_iff scorer vacs okpdtr k prof hv hkv code).mp hc
    rcases hsome code hm with ⟨p, hp, hlk⟩
    rcases extractOne_some_spec scorer prof _ _ p hp with ⟨h1, h2, h3, h4⟩
    exact ⟨p.1, h1, hlk, h2 ▸ h3, fun m hm2 => h2 ▸ h4 m hm2⟩

/-- C3 witness: with one classification name equal to the profession, a
code is assigned (score 100 ≥ 75). -/
theorem c3_matcher_threshold_witness :
    ∃ code, (7, code) ∈
      assignedCodes exactScorer [(7, "системный администратор")]
        [("системный администратор", 148)] := by
  refine (c3_matcher_threshold exactScorer [("системный администратор", 148)]
    [(7, "системный администратор")] 7 "системный администратор"
    (by decide) (by decide) (by decide)).1.mpr ?_
  exact ⟨"системный администратор", by decide, by simp [exactScorer, SIMILARITY_LEVEL_OKPDTR]⟩

theorem writeFlags_eq_map (ids : List Int) :
    ∀ db : List VacRow, writeFlags db ids =
      db.map (fun r => if r.id ∈ ids then { r with is_matched := true } else r) := by
  induction ids with
  | nil =>
      intro db
      simp [writeFlags]
  | cons k ks ih =>
      intro db
      have h1 : writeFlags db (k :: ks) = writeFlags (setMatched db k) ks := rfl
      rw [h1, ih, setMatched, List.map_map]
      refine List.map_congr_left ?_
      intro r _
      simp only [Function.comp_apply]
      by_cases hk : r.id = k
      · by_cases hks : r.id ∈ ks <;>
          simp [hk, hks, List.mem_cons]
      · by_cases hks : r.id ∈ ks <;>
          simp [hk, hks, List.mem_cons]

theorem writeCodes_shape (ms : List (Int × Int)) :
    ∀ (db : List VacRow) (r : VacRow), r ∈ writeCodes db ms →
      ∃ r0 ∈ db, r.id = r0.id ∧ r.profession = r0.profession ∧
        r.is_matched = r0.is_matched := by
  induction ms with
  | nil =>
      intro db r hr
      exact ⟨r, hr, rfl, rfl, rfl⟩
  | cons kv ms ih =>
      intro db r hr
      have h1 : writeCodes db (kv :: ms) = writeCodes (setCode db kv.1 kv.2) ms := rfl
      rw [h1] at hr
      rcases ih _ r hr with ⟨r1, hr1, hid, hprof, hm⟩
      rcases List.mem_map.mp hr1 with ⟨r0, hr0, hval⟩
      by_cases hk : r0.id = kv.1
      · rw [if_pos hk] at hval
        exact ⟨r0, hr0, by rw [hid, ← hval], by rw [hprof, ← hval], by rw [hm, ← hval]⟩
      · rw [if_neg hk] at hval
        exact ⟨r0, hr0, hval ▸ hid, hval ▸ hprof, hval ▸ hm⟩

theorem writeCodes_keeps_code (k : Int) :
    ∀ (ms : List (Int × Int)) (db : List VacRow), k ∉ ms.map Prod.fst →
      ∀ r ∈ writeCodes db ms, r.id = k →
        ∃ r0 ∈ db, r0.id = k ∧ r.id_okpdtr = r0.id_okpdtr := by
  intro ms
  induction ms with
  | nil =>
      intro db _ r hr hid
      exact ⟨r, hr, hid, rfl⟩
  | cons kv ms ih =>
      intro db hk r hr hid
      have hk1 : k ≠ kv.1 := by
        intro he
        exact hk (List.mem_map.mpr ⟨kv, List.mem_cons_self _ _, he.symm⟩)
      have hk2 : k ∉ ms.map Prod.fst := by
        intro he
        rcases List.mem_map.mp he with ⟨x, hx, hfx⟩
        exact hk (List.mem_map.mpr ⟨x, List.mem_cons_of_mem _ hx, hfx⟩)
      have h1 : writeCodes db (kv :: ms) = writeCodes (setCode db kv.1 kv.2) ms := rfl
      rw [h1] at hr
      rcases ih _ hk2 r hr hid with ⟨r1, hr1, hid1, hcode1⟩
      rcases List.mem_map.mp hr1 with ⟨r0, hr0, hval⟩
      by_cases hq : r0.id = kv.1
      · exfalso
        apply hk1
        rw [← hid1, ← hval]
        rw [if_pos hq]
        exact hq
      · rw [if_neg hq] at hval
        exact ⟨r0, hr0, hval ▸ hid1, hval ▸ hcode1⟩

theorem writeCodes_sets_code (k v : Int) :
    ∀ (ms : List (Int × Int)) (db : List VacRow), (ms.map Prod.fst).Nodup →
      (k, v) ∈ ms → (∀ r0 ∈ db, True) →
      ∀ r ∈ writeCodes db ms, r.id = k → r.id_okpdtr = some v := by
  intro ms
  induction ms with
  | nil =>
      intro db _ hkv
      simp at hkv
  | cons kv ms ih =>
      intro db hnd hkv _ r hr hid
      simp only [List.map_cons, List.nodup_cons] at hnd
      have h1 : writeCodes db (kv :: ms) = writeCodes (setCode db kv.1 kv.2) ms := rfl
      rw [h1] at hr
      rcases List.mem_cons.mp hkv with h2 | h3
      · have hkk : kv.1 = k := by rw [← h2]
        have hknot : k ∉ ms.map Prod.fst := hkk ▸ hnd.1
        rcases writeCodes_keeps_code k ms _ hknot r hr hid with ⟨r1, hr1, hid1, hcode1⟩
        rcases List.mem_map.mp hr1 with ⟨r0, _, hval⟩
        by_cases hq : r0.id = kv.1
        · rw [if_pos hq] at hval
          rw [hcode1, ← hval]
          have : v = kv.2 := by rw [← h2]
          rw [this]
        · rw [if_neg hq] at hval
          exfalso
          apply hq
          rw [hval, hid1, hkk]
      · exact ih _ hnd.2 h3 (fun _ _ => trivial) r hr hid

/-- C4: after the write-back stage completes, every row whose id was read
back as unmatched in this pass carries `is_matched = true`, whatever the
match list contains — in particular also when no qualifying match was
produced for it. -/
theorem c4_all_marked_matched (db : List VacRow) (ms : List (Int × Int)) :
    ∀ r ∈ writeFlags (writeCodes db ms) ((readBack db).map Prod.fst),
      r.id ∈ (readBack db).map Prod.fst → r.is_matched = true := by
  intro r hr hid
  rw [writeFlags_eq_map] at hr
  rcases List.mem_map.mp hr with ⟨r0, _, hval⟩
  by_cases hin : r0.id ∈ (readBack db).map Prod.fst
  · rw [if_pos hin] at hval
    rw [← hval]
  · rw [if_neg hin] at hval
    exfalso
    apply hin
    rw [hval]
    exact hid

/-- C4 witness: a database with one matched and one unmatched row, an
empty match list; the unmatched row is flagged true after write-back. -/
theorem c4_all_marked_matched_witness :
    ({ id := 1, profession := "a", id_okpdtr := none, is_matched := true } : VacRow).is_matched
      = true := by
  refine c4_all_marked_matched
    [⟨1, "a", none, false⟩, ⟨2, "b", some 4, true⟩] []
    ⟨1, "a", none, true⟩ (by decide) (by decide)

/-- C10: the write-back stage runs the code updates and the flag updates
as two separate transactions, codes first (parser.py lines 310-312, then
314-316). If the run fails between them, the database holds exactly the
code updates: every resolved match's code is persisted, while every row
read back in this pass still has `is_matched = false`; the orchestrator
then logs and exits with the write-back failure code 9. -/
theorem c10_two_transactions (db : List VacRow) (ms : List (Int × Int))
    (hdb : (db.map (fun r => r.id)).Nodup) (hms : (ms.map Prod.fst).Nodup) :
    (∀ p ∈ ms, ∀ r ∈ writeCodes db ms, r.id = p.1 → r.id_okpdtr = some p.2) ∧
    (∀ r ∈ writeCodes db ms, r.id ∈ (readBack db).map Prod.fst →
      r.is_matched = false) ∧
    (runMain { allOk with writeBackOk := false } =
      ⟨9, [(9, msgOkpdtr)], true, true⟩) := by
  refine ⟨?_, ?_, by decide⟩
  · intro p hp r hr hid
    exact writeCodes_sets_code p.1 p.2 ms db hms hp (fun _ _ => trivial) r hr hid
  · intro r hr hid
    rcases writeCodes_shape ms db r hr with ⟨r0, hr0, hid0, _, hm0⟩
    rcases List.mem_map.mp hid with ⟨q, hq, hqid⟩
    rcases List.mem_map.mp hq with ⟨u, hu, huq⟩
    have huid : u.id = r0.id := by
      rw [← hid0, ← hqid, ← huq]
    have hu0 : u ∈ db := List.mem_of_mem_filter hu
    have hfu := List.of_mem_filter hu
    simp only [Bool.not_eq_true'] at hfu
    have hru : u = r0 := by
      exact List.inj_on_of_nodup_map hdb hu0 hr0 huid
    rw [hm0, ← hru]
    exact hfu

/-- C10 witness: one unmatched row and one resolved match; after the first
transaction alone the code is persisted and the flag still false. -/
theorem c10_two_transactions_witness :
    ({ id := 1, profession := "a", id_okpdtr := some 7, is_matched := false } : VacRow).id_okpdtr
      = some 7 := by
  refine (c10_two_transactions [⟨1, "a", none, false⟩] [(1, 7)]
    (by decide) (by decide)).1 (1, 7) (by decide)
    ⟨1, "a", some 7, false⟩ (by decide) rfl

/-- C9: evaluation of the request builder at a concrete input. The claim
says each request carries exactly the query parameters {period=0, town=13,
count=100, catalogues, page}; the code sends the misspelled key `peroid`
(parser.py line 77) instead of `period`, so the upstream API never
receives a `period` filter. Header structure and the one-request-per-
category, five-page fan-out match the claim. -/
theorem c9_request_params :
    vacancyRequests "tok" "sec" [1, 33] 0 =
      [{ url := "https://api.superjob.ru/2.20/vacancies/",
         headers := [("X-Api-App-Id", "sec"), ("Authorization", "Bearer tok")],
         queryParams := [("peroid", 0), ("town", 13), ("count", 100),
                         ("catalogues", 1), ("page", 0)] },
       { url := "https://api.superjob.ru/2.20/vacancies/",
         headers := [("X-Api-App-Id", "sec"), ("Authorization", "Bearer tok")],
         queryParams := [("peroid", 0), ("town", 13), ("count", 100),
                         ("catalogues", 33), ("page", 0)] }] ∧
    ((fetchAllPagesRequests "tok" "sec" [1, 33]).map
        (fun req => req.queryParams.map Prod.fst)).all
      (fun keys => keys = ["peroid", "town", "count", "catalogues", "page"]) = true ∧
    (fetchAllPagesRequests "tok" "sec" [1, 33]).length = 10 := by
  refine ⟨?_, ?_, ?_⟩ <;> rfl

end SJ
